import Mathlib

/-!
A shallow embedding of `kopf/reactor/registries.py`: the handler-selection
and matching engine of the kopf operator framework.  Python data is modelled
as follows: optional values become `Option`, Python truthiness of optional
containers is spelled out at each use site, mappings become association
lists (first binding wins, as Python dicts have unique keys), reference
identity of callback objects (`id(fn)`) becomes an explicit `refId : Nat`
carried next to the structural description of the callable, and a Python
function that may raise becomes a Lean function into `Except`.  The only
code in the selection paths that can raise is a user-supplied `when`
callback (and id-derivation during registration), so the `when` field is a
Lean function returning `Except ε Bool` for an abstract error type `ε`.
Inert execution metadata on handlers (errors/timeout/retries/backoff) is
never read by any function of this module and is omitted from the records.
-/

set_option autoImplicit false

namespace Kopf

/-- A field path, e.g. `["spec", "replicas"]` (`dicts.FieldPath`). -/
abbrev FieldPath := List String

/-- The operator-wide activities (`causation.Activity`). -/
inductive Activity where
  | startup
  | cleanup
  | authentication
  | probe
deriving DecidableEq

/-- The resource-changing reasons (`causation.Reason`). -/
inductive Reason where
  | create
  | update
  | delete
  | resume
  | noop
  | free
  | gone
deriving DecidableEq

/-- A resource kind key: `resources.Resource(group, version, plural)`. -/
structure Resource where
  group : String
  version : String
  plural : String
deriving DecidableEq

/-- The structural shape of a Python callable (or non-callable) as far as
`get_callable_id` inspects it: `None`, a `functools.partial` wrapper, a
`__wrapped__`-carrying decorated function, a lambda (with its source
coordinates), a plain function or method (with its qualified name), or
anything else (with its `repr`). -/
inductive PyObj where
  | pynone
  | partApplied (func : PyObj)
  | wrapped (inner : PyObj)
  | lambdaFn (path : String) (line : Nat)
  | function (qualname : String)
  | method (qualname : String)
  | other (objRepr : String)
deriving DecidableEq

/-- A reference to a Python callback object: `refId` models the reference
identity `id(fn)` used by `_deduplicated`, `obj` the structure inspected
by `get_callable_id`.  Two distinct objects (distinct `refId`) may well be
structurally equal. -/
structure PyRef where
  refId : Nat
  obj : PyObj
deriving DecidableEq

/-- The parts of a resource body read by the match engine:
`body.get('metadata', {}).get('labels', {})` and the same for annotations
(a missing `metadata` key is identified with empty mappings). -/
structure Body where
  labels : List (String × String)
  annotations : List (String × String)
deriving DecidableEq

/-- A diff operation tag (`add`/`change`/`remove`). -/
inductive DiffOp where
  | add
  | change
  | remove
deriving DecidableEq

/-- One entry of a diff: `(operation, field_path, old, new)`.  The value
payloads are opaque to this module (only the path is ever read) and are
modelled as strings. -/
structure DiffEntry where
  op : DiffOp
  path : FieldPath
  oldVal : String
  newVal : String
deriving DecidableEq

/-- The common part of resource causes (`causation.ResourceCause`): the
resource kind and the body.  This is what `match` and the `when` callback
receive. -/
structure ResourceCause where
  resource : Resource
  body : Body
deriving DecidableEq

/-- A low-level watching cause (`causation.ResourceWatchingCause`); the raw
event payload is opaque to this module. -/
structure ResourceWatchingCause extends ResourceCause where
  event : String
deriving DecidableEq

/-- A high-level changing cause (`causation.ResourceChangingCause`). -/
structure ResourceChangingCause extends ResourceCause where
  reason : Reason
  diff : List DiffEntry
  initial : Bool
  deleted : Bool
deriving DecidableEq

/-- An activity handler record (`handlers.ActivityHandler`), restricted to
the fields read by this module.  `fallback` models `_fallback`. -/
structure ActivityHandler where
  id : String
  fn : PyRef
  activity : Option Activity
  fallback : Bool
deriving DecidableEq

/-- A resource handler record (`handlers.ResourceHandler`), restricted to
the fields read by this module.  A selector value of `none` means "key must
merely be present".  The `when` callback may raise, hence `Except ε`. -/
structure ResourceHandler (ε : Type) where
  id : String
  fn : PyRef
  reason : Option Reason
  field : Option FieldPath
  initial : Option Bool
  deleted : Option Bool
  requires_finalizer : Bool
  labels : Option (List (String × Option String))
  annotations : Option (List (String × Option String))
  when : Option (ResourceCause → Except ε Bool)

/-- First-binding lookup in an association list (Python dict access;
dict keys are unique, so first-binding-wins is faithful). -/
def assocLookup {κ β : Type} [DecidableEq κ] (k : κ) : List (κ × β) → Option β
  | [] => none
  | (k2, v) :: t => if k2 = k then some v else assocLookup k t

/-- `_matches_field(handler, changed_fields, ignore_fields)`:
`ignore_fields or not handler.field or
 any(field[:len(handler.field)] == handler.field for field in changed_fields)`.
Python truthiness of the optional tuple: `None` and `()` are both falsy. -/
def matchesField {ε : Type} (handler : ResourceHandler ε)
    (changed_fields : List FieldPath) (ignore_fields : Bool) : Bool :=
  ignore_fields ||
    (match handler.field with
     | none => true
     | some f => f.isEmpty || changed_fields.any fun p => decide (p.take f.length = f))

/-- `_matches_metadata(pattern, content)`: every pattern key must be present
in the content; a non-`None` pattern value must equal the content value. -/
def matchesMetadata (pat : List (String × Option String))
    (content : List (String × String)) : Bool :=
  match pat with
  | [] => true
  | (key, val) :: rest =>
    match assocLookup key content with
    | none => false
    | some cv =>
      match val with
      | none => matchesMetadata rest content
      | some v => if v = cv then matchesMetadata rest content else false

/-- `_matches_labels`: `not handler.labels or _matches_metadata(...)` —
an absent (`None`) and an empty selector are both falsy and pass. -/
def matchesLabels {ε : Type} (handler : ResourceHandler ε) (body : Body) : Bool :=
  match handler.labels with
  | none => true
  | some pat => pat.isEmpty || matchesMetadata pat body.labels

/-- `_matches_annotations`: identical to the label rule, against
`metadata.annotations`. -/
def matchesAnnotations {ε : Type} (handler : ResourceHandler ε) (body : Body) : Bool :=
  match handler.annotations with
  | none => true
  | some pat => pat.isEmpty || matchesMetadata pat body.annotations

/-- `_matches_filter_callback`: passes when `when` is absent, otherwise the
callback's outcome (normal return or a raised error) is the outcome. -/
def matchesFilterCallback {ε : Type} (handler : ResourceHandler ε)
    (cause : ResourceCause) : Except ε Bool :=
  match handler.when with
  | none => .ok true
  | some w => w cause

/-- `match(handler, cause, changed_fields, ignore_fields)`: the conjunction
of the four rules.  Python builds the list for `all([...])` eagerly, so the
`when` callback is invoked (and its error raised) even when an earlier rule
is already false.  (`changed_fields or {}` only replaces an empty collection
with an empty one and is dropped.) -/
def matchCause {ε : Type} (handler : ResourceHandler ε) (cause : ResourceCause)
    (changed_fields : List FieldPath) (ignore_fields : Bool) : Except ε Bool := do
  let f := matchesField handler changed_fields ignore_fields
  let l := matchesLabels handler cause.body
  let a := matchesAnnotations handler cause.body
  let w ← matchesFilterCallback handler cause
  .ok (f && l && a && w)

/-- `ActivityRegistry.iter_handlers`: a first pass over the registered
handlers with `handler.activity is None or handler.activity == activity and
not handler._fallback` (note the Python precedence: `A or (B and C)`); if it
yielded nothing (`found` stayed false), a second pass with
`handler.activity is None or handler.activity == activity and
handler._fallback`. -/
def ActivityRegistry.iter_handlers (hs : List ActivityHandler)
    (activity : Activity) : List ActivityHandler :=
  let firstPass := hs.filter fun h =>
    decide (h.activity = none) || (decide (h.activity = some activity) && !h.fallback)
  if firstPass.isEmpty then
    hs.filter fun h =>
      decide (h.activity = none) || (decide (h.activity = some activity) && h.fallback)
  else firstPass

/-- Access to the callback reference of a handler record, for the
deduplicator (`id(handler.fn)`). -/
class HasFn (α : Type) where
  fnOf : α → PyRef

instance : HasFn ActivityHandler := ⟨ActivityHandler.fn⟩

instance {ε : Type} : HasFn (ResourceHandler ε) := ⟨ResourceHandler.fn⟩

/-- The reference identity `id(handler.fn)` of a handler record. -/
def fnIdOf {α : Type} [HasFn α] (h : α) : Nat :=
  (HasFn.fnOf h).refId

/-- The loop of `_deduplicated` with its accumulated `seen_ids` set
(modelled as a list of reference ids). -/
def dedupAux {α : Type} [HasFn α] (seen : List Nat) : List α → List α
  | [] => []
  | h :: t =>
    if fnIdOf h ∈ seen then dedupAux seen t
    else h :: dedupAux (fnIdOf h :: seen) t

/-- `_deduplicated(handlers)`: keep only the first record for each distinct
callback reference identity. -/
def deduplicated {α : Type} [HasFn α] (hs : List α) : List α :=
  dedupAux [] hs

/-- `ActivityRegistry.get_handlers`: the deduplicated selection. -/
def ActivityRegistry.get_handlers (hs : List ActivityHandler)
    (activity : Activity) : List ActivityHandler :=
  deduplicated (ActivityRegistry.iter_handlers hs activity)

/-- `ResourceWatchingRegistry.iter_handlers`: every handler with
`match(handler, cause, ignore_fields=True)` (and the default empty
`changed_fields`); an error raised by a `when` callback propagates. -/
def ResourceWatchingRegistry.iter_handlers {ε : Type} :
    List (ResourceHandler ε) → ResourceWatchingCause →
    Except ε (List (ResourceHandler ε))
  | [], _ => .ok []
  | h :: t, cause => do
    let b ← matchCause h cause.toResourceCause [] true
    let rest ← ResourceWatchingRegistry.iter_handlers t cause
    .ok (if b then h :: rest else rest)

/-- The changed paths of a changing cause:
`frozenset(field for _, field, _, _ in cause.diff or [])`.  Modelled as the
list of paths; only membership is ever used, so distinctness is
irrelevant. -/
def changedFields (cause : ResourceChangingCause) : List FieldPath :=
  cause.diff.map fun d => d.path

/-- The per-handler decision of `ResourceChangingRegistry.iter_handlers`:
the reason gate, then the two initial-phase gates (`handler.initial` is
truthy only as `some true`, `not handler.deleted` is true unless
`some true`), then the full `match`.  Handlers stopped by a gate never
invoke their `when` callback. -/
def changingSelected {ε : Type} (handler : ResourceHandler ε)
    (cause : ResourceChangingCause) : Except ε Bool :=
  if handler.reason = none ∨ handler.reason = some cause.reason then
    if handler.initial = some true ∧ cause.initial = false then .ok false
    else if handler.initial = some true ∧ cause.deleted = true ∧ ¬ handler.deleted = some true then
      .ok false
    else matchCause handler cause.toResourceCause (changedFields cause) false
  else .ok false

/-- `ResourceChangingRegistry.iter_handlers`: the survivors of
`changingSelected`, in registration order; a raised `when` error
propagates. -/
def ResourceChangingRegistry.iter_handlers {ε : Type} :
    List (ResourceHandler ε) → ResourceChangingCause →
    Except ε (List (ResourceHandler ε))
  | [], _ => .ok []
  | h :: t, cause => do
    let b ← changingSelected h cause
    let rest ← ResourceChangingRegistry.iter_handlers t cause
    .ok (if b then h :: rest else rest)

/-- `ResourceRegistry.get_handlers` for the changing registry:
`list(_deduplicated(self.iter_handlers(cause)))`. -/
def ResourceChangingRegistry.get_handlers {ε : Type}
    (hs : List (ResourceHandler ε)) (cause : ResourceChangingCause) :
    Except ε (List (ResourceHandler ε)) :=
  (ResourceChangingRegistry.iter_handlers hs cause).map deduplicated

/-- `ResourceRegistry.get_handlers` for the watching registry. -/
def ResourceWatchingRegistry.get_handlers {ε : Type}
    (hs : List (ResourceHandler ε)) (cause : ResourceWatchingCause) :
    Except ε (List (ResourceHandler ε)) :=
  (ResourceWatchingRegistry.iter_handlers hs cause).map deduplicated

/-- `ResourceRegistry.requires_finalizer`: the first handler with
`requires_finalizer` set is tested with `match(handler, cause)` — i.e. with
the *default* `changed_fields=frozenset()` and `ignore_fields=False`;
Python's `and` short-circuits, so handlers without the flag are not
matched (their `when` callback is not invoked). -/
def ResourceRegistry.requires_finalizer {ε : Type} :
    List (ResourceHandler ε) → ResourceCause → Except ε Bool
  | [], _ => .ok false
  | h :: t, cause =>
    if h.requires_finalizer then do
      let b ← matchCause h cause [] false
      if b then .ok true else ResourceRegistry.requires_finalizer t cause
    else ResourceRegistry.requires_finalizer t cause

/-- `ResourceRegistry.iter_extra_fields`: the truthy (`non-None`,
non-empty) field filters of the registered handlers. -/
def ResourceRegistry.iter_extra_fields {ε : Type}
    (hs : List (ResourceHandler ε)) : List FieldPath :=
  hs.filterMap fun h =>
    match h.field with
    | none => none
    | some f => if f.isEmpty then none else some f

/-- `ResourceRegistry.get_extra_fields`: Python wraps the iteration into a
`set`; modelled as a duplicate-free list (only emptiness and membership are
meaningful). -/
def ResourceRegistry.get_extra_fields {ε : Type}
    (hs : List (ResourceHandler ε)) : List FieldPath :=
  (ResourceRegistry.iter_extra_fields hs).dedup

/-- `OperatorRegistry`: one activity registry and two per-resource-kind
maps of handler registries.  The Python maps are `defaultdict`s; they are
modelled as association lists together with `defaultdictGet` below, so that
the insert-on-missing-key behaviour of `map[resource]` is explicit. -/
structure OperatorRegistry (ε : Type) where
  activity_handlers : List ActivityHandler
  resource_watching_handlers : List (Resource × List (ResourceHandler ε))
  resource_changing_handlers : List (Resource × List (ResourceHandler ε))

/-- A `defaultdict(SomeRegistry)` item access `map[resource]`: the stored
registry when the key is present, otherwise a fresh empty registry which is
*inserted into the map* as a side effect (the updated map is returned). -/
def defaultdictGet {ε : Type} (m : List (Resource × List (ResourceHandler ε)))
    (r : Resource) : List (ResourceHandler ε) × List (Resource × List (ResourceHandler ε)) :=
  match assocLookup r m with
  | some v => (v, m)
  | none => ([], m ++ [(r, [])])

/-- `OperatorRegistry.iter_resource_watching_handlers`: guarded by
`cause.resource in self._resource_watching_handlers`; an absent kind yields
nothing.  The possibly-updated registry state is returned alongside the
result to make the (absence of) mutation by the query observable. -/
def OperatorRegistry.iter_resource_watching_handlers {ε : Type}
    (st : OperatorRegistry ε) (cause : ResourceWatchingCause) :
    Except ε (List (ResourceHandler ε)) × OperatorRegistry ε :=
  if (assocLookup cause.resource st.resource_watching_handlers).isSome then
    let (sub, m2) := defaultdictGet st.resource_watching_handlers cause.resource
    (ResourceWatchingRegistry.iter_handlers sub cause,
     { st with resource_watching_handlers := m2 })
  else (.ok [], st)

/-- `OperatorRegistry.iter_resource_changing_handlers`: guarded by
`cause.resource in self._resource_changing_handlers`. -/
def OperatorRegistry.iter_resource_changing_handlers {ε : Type}
    (st : OperatorRegistry ε) (cause : ResourceChangingCause) :
    Except ε (List (ResourceHandler ε)) × OperatorRegistry ε :=
  if (assocLookup cause.resource st.resource_changing_handlers).isSome then
    let (sub, m2) := defaultdictGet st.resource_changing_handlers cause.resource
    (ResourceChangingRegistry.iter_handlers sub cause,
     { st with resource_changing_handlers := m2 })
  else (.ok [], st)

/-- `OperatorRegistry.get_resource_watching_handlers`:
`list(_deduplicated(self.iter_resource_watching_handlers(cause)))`. -/
def OperatorRegistry.get_resource_watching_handlers {ε : Type}
    (st : OperatorRegistry ε) (cause : ResourceWatchingCause) :
    Except ε (List (ResourceHandler ε)) × OperatorRegistry ε :=
  let (res, st2) := OperatorRegistry.iter_resource_watching_handlers st cause
  (res.map deduplicated, st2)

/-- `OperatorRegistry.get_resource_changing_handlers`. -/
def OperatorRegistry.get_resource_changing_handlers {ε : Type}
    (st : OperatorRegistry ε) (cause : ResourceChangingCause) :
    Except ε (List (ResourceHandler ε)) × OperatorRegistry ε :=
  let (res, st2) := OperatorRegistry.iter_resource_changing_handlers st cause
  (res.map deduplicated, st2)

/-- `OperatorRegistry.has_resource_watching_handlers`:
`resource in map and bool(map[resource])` — the short-circuiting `and`
never touches the map for an absent key. -/
def OperatorRegistry.has_resource_watching_handlers {ε : Type}
    (st : OperatorRegistry ε) (r : Resource) : Bool × OperatorRegistry ε :=
  if (assocLookup r st.resource_watching_handlers).isSome then
    let (sub, m2) := defaultdictGet st.resource_watching_handlers r
    (!sub.isEmpty, { st with resource_watching_handlers := m2 })
  else (false, st)

/-- `OperatorRegistry.has_resource_changing_handlers`. -/
def OperatorRegistry.has_resource_changing_handlers {ε : Type}
    (st : OperatorRegistry ε) (r : Resource) : Bool × OperatorRegistry ε :=
  if (assocLookup r st.resource_changing_handlers).isSome then
    let (sub, m2) := defaultdictGet st.resource_changing_handlers r
    (!sub.isEmpty, { st with resource_changing_handlers := m2 })
  else (false, st)

/-- `OperatorRegistry.get_extra_fields` / `iter_extra_fields`: guarded by
`resource in self._resource_changing_handlers`; an absent kind yields the
empty set. -/
def OperatorRegistry.get_extra_fields {ε : Type}
    (st : OperatorRegistry ε) (r : Resource) : List FieldPath × OperatorRegistry ε :=
  if (assocLookup r st.resource_changing_handlers).isSome then
    let (sub, m2) := defaultdictGet st.resource_changing_handlers r
    (ResourceRegistry.get_extra_fields sub, { st with resource_changing_handlers := m2 })
  else ([], st)

/-- `OperatorRegistry.requires_finalizer`:
`resource in map and map[resource].requires_finalizer(cause=cause)`. -/
def OperatorRegistry.requires_finalizer {ε : Type}
    (st : OperatorRegistry ε) (r : Resource) (cause : ResourceCause) :
    Except ε Bool × OperatorRegistry ε :=
  if (assocLookup r st.resource_changing_handlers).isSome then
    let (sub, m2) := defaultdictGet st.resource_changing_handlers r
    (ResourceRegistry.requires_finalizer sub cause,
     { st with resource_changing_handlers := m2 })
  else (.ok false, st)

/-- The error of id-derivation.  The Python code raises `ValueError`; the
specification's taxonomy names it `InvalidCallableError`. -/
inductive IdError where
  | invalidCallable (msg : String)
deriving DecidableEq

/-- `get_callable_id(c)`: `None` and unsupported callables raise; partials
and `@functools.wraps`-style wrappers are unwrapped recursively; lambdas
get a source-coordinate id; functions and methods their qualified name. -/
def get_callable_id : PyObj → Except IdError String
  | .pynone => .error (.invalidCallable "Cannot build a persistent id of None.")
  | .partApplied func => get_callable_id func
  | .wrapped inner => get_callable_id inner
  | .lambdaFn path line => .ok ("lambda:" ++ path ++ ":" ++ toString line)
  | .function qualname => .ok qualname
  | .method qualname => .ok qualname
  | .other objRepr => .error (.invalidCallable ("Cannot get id of " ++ objRepr ++ "."))

/-- `generate_id(fn, id, prefix, suffix)`: an explicit id wins and the
callback is not inspected at all; otherwise the id is derived from the
callback.  A falsy (absent or empty) suffix/prefix is not applied; the
Python `prefix` parameter is named `pre` here (`prefix` is reserved in
Lean). -/
def generate_id (fn : PyObj) (id : Option String) (pre : Option String)
    (suffix : Option String) : Except IdError String := do
  let real_id ← match id with
    | some i => Except.ok i
    | none => get_callable_id fn
  let real_id := match suffix with
    | none => real_id
    | some s => if s = "" then real_id else real_id ++ "/" ++ s
  let real_id := match pre with
    | none => real_id
    | some p => if p = "" then real_id else p ++ "/" ++ real_id
  .ok real_id

/-- `ActivityRegistry.register`: derive the id (which may raise), build the
record, append it.  A raised id-derivation error aborts the registration
before anything is appended. -/
def ActivityRegistry.register (hs : List ActivityHandler) (fn : PyRef)
    (id : Option String) (activity : Option Activity) (fallback : Bool) :
    Except IdError (List ActivityHandler) := do
  let real_id ← generate_id fn.obj id none none
  .ok (hs ++ [{ id := real_id, fn := fn, activity := activity, fallback := fallback }])

/-- `ResourceRegistry.register`: `real_field = parse_field(field) or None`
(field paths arrive already parsed here; the `or None` drops an empty
path), then the id is derived with the dot-joined field as suffix, and the
record is appended.  A raised id-derivation error aborts the
registration. -/
def ResourceRegistry.register {ε : Type} (hs : List (ResourceHandler ε))
    (fn : PyRef) (id : Option String) (reason : Option Reason)
    (field : Option FieldPath) (initial : Option Bool) (deleted : Option Bool)
    (requires_finalizer : Bool) (labels : Option (List (String × Option String)))
    (annotations : Option (List (String × Option String)))
    (when : Option (ResourceCause → Except ε Bool)) :
    Except IdError (List (ResourceHandler ε)) := do
  let real_field : Option FieldPath := match field with
    | none => none
    | some f => if f.isEmpty then none else some f
  let real_id ← generate_id fn.obj id none (some (String.intercalate "." (real_field.getD [])))
  .ok (hs ++ [{ id := real_id, fn := fn, reason := reason, field := real_field,
                initial := initial, deleted := deleted,
                requires_finalizer := requires_finalizer, labels := labels,
                annotations := annotations, when := when }])

/-! ## Concrete inputs used by individual results -/

/-- A fallback activity handler registered with no activity filter (as the
smart registry's auto-login handlers could be, were they not pinned to
`AUTHENTICATION`). -/
def fallbackLogin : ActivityHandler :=
  { id := "login", fn := { refId := 1, obj := .function "login" },
    activity := none, fallback := true }

/-- A regular (non-fallback) activity handler for `AUTHENTICATION`. -/
def userLogin : ActivityHandler :=
  { id := "user_login", fn := { refId := 2, obj := .function "user_login" },
    activity := some .authentication, fallback := false }

/-! ## Results -/

/-- C1: the claim does not hold on the code.  The first pass of
`ActivityRegistry.iter_handlers` checks `handler.activity is None or
handler.activity == activity and not handler._fallback`, which Python
parses as `A or (B and C)`: a *fallback* handler with no activity filter
passes the first disjunct, is yielded in the "regular handlers" pass and
even sets `found`.  Here a non-fallback candidate (`userLogin`) exists,
yet the selection yields the fallback candidate `fallbackLogin` as well —
the code contradicts its own comment ("Fallback handlers -- only if there
were no matching regular handlers") and the spec. -/
theorem activity_iter_yields_fallback_beside_regular :
    ActivityRegistry.iter_handlers [fallbackLogin, userLogin] Activity.authentication
      = [fallbackLogin, userLogin]
    ∧ fallbackLogin.fallback = true
    ∧ fallbackLogin.activity = none
    ∧ userLogin.fallback = false
    ∧ userLogin.activity = some Activity.authentication := by
  refine ⟨?_, rfl, rfl, rfl, rfl⟩
  decide

/-- C10: an explicit id makes `generate_id` ignore the callback entirely:
the result does not depend on the callback, is never an error, and is the
explicit id with `/suffix` appended for a non-empty suffix and `prefix/`
prepended for a non-empty prefix (both skipped when absent or empty). -/
theorem generate_id_explicit_id_bypasses_callback (fn fn2 : PyObj) (i : String)
    (pre suffix : Option String) :
    generate_id fn (some i) pre suffix = generate_id fn2 (some i) pre suffix
  ∧ (∃ r, generate_id fn (some i) pre suffix = .ok r)
  ∧ generate_id fn (some i) none none = .ok i
  ∧ (∀ s, s ≠ "" → generate_id fn (some i) none (some s) = .ok (i ++ "/" ++ s))
  ∧ (∀ p, p ≠ "" → generate_id fn (some i) (some p) none = .ok (p ++ "/" ++ i))
  ∧ (∀ p s, p ≠ "" → s ≠ "" →
      generate_id fn (some i) (some p) (some s) = .ok (p ++ "/" ++ (i ++ "/" ++ s)))
  ∧ generate_id fn (some i) (some "") (some "") = .ok i := by
  refine ⟨rfl, ⟨_, rfl⟩, rfl, ?_, ?_, ?_, rfl⟩
  · intro s hs
    simp only [generate_id, hs, if_neg]
    rfl
  · intro p hp
    simp only [generate_id, hp, if_neg]
    rfl
  · intro p s hp hs
    simp only [generate_id, hp, hs, if_neg]
    rfl

/-- Witness for C10 at a concrete input. -/
theorem generate_id_explicit_id_bypasses_callback_witness :
    generate_id PyObj.pynone (some "my-id") (some "p") (some "s")
      = .ok ("p" ++ "/" ++ ("my-id" ++ "/" ++ "s")) :=
  (generate_id_explicit_id_bypasses_callback PyObj.pynone (PyObj.other "x")
    "my-id" (some "p") (some "s")).2.2.2.2.2.1 "p" "s" (by decide) (by decide)

/-- C9: a callback without a derivable identity (`None`, or an unsupported
kind of object, possibly below partial/wrapper layers) makes
`get_callable_id` fail, makes `generate_id` (without an explicit id) fail
with the same error, and makes registration fail with that error instead
of appending anything — never silently skipped. -/
theorem invalid_callable_registration_fails {ε : Type} (fn : PyRef) (e : IdError)
    (pre suffix : Option String) (acts : List ActivityHandler)
    (ress : List (ResourceHandler ε)) (act : Option Activity) (fb : Bool)
    (reason : Option Reason) (field : Option FieldPath) (ini del : Option Bool)
    (rf : Bool) (lbl ann : Option (List (String × Option String)))
    (whn : Option (ResourceCause → Except ε Bool))
    (hbad : get_callable_id fn.obj = .error e) :
    get_callable_id PyObj.pynone
      = .error (.invalidCallable "Cannot build a persistent id of None.")
  ∧ (∀ r, get_callable_id (PyObj.other r)
      = .error (.invalidCallable ("Cannot get id of " ++ r ++ ".")))
  ∧ (∀ f, get_callable_id (PyObj.partApplied f) = get_callable_id f)
  ∧ (∀ f, get_callable_id (PyObj.wrapped f) = get_callable_id f)
  ∧ generate_id fn.obj none pre suffix = .error e
  ∧ ActivityRegistry.register acts fn none act fb = .error e
  ∧ ResourceRegistry.register ress fn none reason field ini del rf lbl ann whn
      = .error e := by
  refine ⟨rfl, fun r => rfl, fun f => rfl, fun f => rfl, ?_, ?_, ?_⟩
  · simp only [generate_id, hbad]
    rfl
  · simp only [ActivityRegistry.register, generate_id, hbad]
    rfl
  · simp only [ResourceRegistry.register, generate_id, hbad]
    rfl

/-- Witness for C9 at a concrete input: registering `None` fails. -/
theorem invalid_callable_registration_fails_witness :
    ActivityRegistry.register [] { refId := 0, obj := PyObj.pynone } none none true
      = .error (.invalidCallable "Cannot build a persistent id of None.") :=
  (invalid_callable_registration_fails (ε := Unit) { refId := 0, obj := PyObj.pynone }
    (.invalidCallable "Cannot build a persistent id of None.") none none [] []
    none true none none none none false none none none rfl).2.2.2.2.2.1

/-- The specification's wording of one selector rule: every selector key is
present in the content, and a non-`none` selector value equals the content
value exactly. -/
def selectorHolds (pat : List (String × Option String))
    (content : List (String × String)) : Prop :=
  ∀ kv ∈ pat, ∃ cv, assocLookup kv.1 content = some cv ∧
    (kv.2 = none ∨ kv.2 = some cv)

theorem matchesMetadata_iff (pat : List (String × Option String))
    (content : List (String × String)) :
    matchesMetadata pat content = true ↔ selectorHolds pat content := by
  induction pat with
  | nil =>
    simp [matchesMetadata, selectorHolds]
  | cons kv rest ih =>
    obtain ⟨key, val⟩ := kv
    cases hl : assocLookup key content with
    | none =>
      simp only [matchesMetadata, hl]
      constructor
      · intro hm
        exact absurd hm (by simp)
      · intro hsel
        obtain ⟨cv, hcv, _⟩ := hsel (key, val) (by simp)
        simp only at hcv
        rw [hl] at hcv
        exact absurd hcv (by simp)
    | some cv =>
      have hhead : ∀ hrest : selectorHolds rest content,
          (val = none ∨ val = some cv) → selectorHolds ((key, val) :: rest) content := by
        intro hrest hval kv2 hkv2
        rcases List.mem_cons.mp hkv2 with hkv2 | hkv2
        · subst hkv2
          exact ⟨cv, hl, hval⟩
        · exact hrest kv2 hkv2
      have htail : selectorHolds ((key, val) :: rest) content → selectorHolds rest content :=
        fun hsel kv2 hkv2 => hsel kv2 (List.mem_cons_of_mem _ hkv2)
      cases val with
      | none =>
        simp only [matchesMetadata, hl]
        rw [ih]
        constructor
        · intro hrest
          exact hhead hrest (Or.inl rfl)
        · exact htail
      | some v =>
        simp only [matchesMetadata, hl]
        by_cases hv : v = cv
        · rw [if_pos hv, ih]
          constructor
          · intro hrest
            exact hhead hrest (Or.inr (by rw [hv]))
          · exact htail
        · rw [if_neg hv]
          constructor
          · intro hm
            exact absurd hm (by simp)
          · intro hsel
            obtain ⟨cv2, hcv2, hvv⟩ := hsel (key, some v) (by simp)
            simp only at hcv2 hvv
            rw [hl] at hcv2
            rcases hvv with hvv | hvv
            · exact absurd hvv (by simp)
            · obtain rfl : cv = cv2 := by injection hcv2
              obtain rfl : v = cv := by injection hvv
              exact absurd rfl hv

/-- C6: the label rule passes iff the selector is absent or every selector
key is present among the body's labels with an exactly-equal value whenever
the selector value is not `none` (for an empty selector `selectorHolds` is
vacuously true, matching "passes if the selector is empty"); the annotation
rule is the identical logic against the body's annotations. -/
theorem label_annotation_selector_semantics {ε : Type} (h : ResourceHandler ε)
    (body : Body) :
    (matchesLabels h body = true ↔
      ∀ pat, h.labels = some pat → selectorHolds pat body.labels)
  ∧ (matchesAnnotations h body = true ↔
      ∀ pat, h.annotations = some pat → selectorHolds pat body.annotations) := by
  constructor
  · cases hl : h.labels with
    | none => simp [matchesLabels, hl]
    | some pat =>
      simp only [matchesLabels, hl, Option.some.injEq, forall_eq']
      rw [← matchesMetadata_iff]
      cases pat with
      | nil => simp [matchesMetadata]
      | cons kv rest => simp
  · cases hl : h.annotations with
    | none => simp [matchesAnnotations, hl]
    | some pat =>
      simp only [matchesAnnotations, hl, Option.some.injEq, forall_eq']
      rw [← matchesMetadata_iff]
      cases pat with
      | nil => simp [matchesMetadata]
      | cons kv rest => simp

/-- Witness for C6 at a concrete input: a selector `{env: prod}` matches a
body labelled `env=prod`. -/
theorem label_annotation_selector_semantics_witness :
    matchesLabels (ε := Unit)
      { id := "h", fn := { refId := 1, obj := .function "h" }, reason := none,
        field := none, initial := none, deleted := none,
        requires_finalizer := false, labels := some [("env", some "prod")],
        annotations := none, when := none }
      { labels := [("env", "prod")], annotations := [] } = true :=
  (label_annotation_selector_semantics _ _).1.mpr
    (fun pat hp => by
      cases hp
      intro kv hkv
      simp only [List.mem_singleton] at hkv
      subst hkv
      exact ⟨"prod", rfl, Or.inr rfl⟩)

/-- C3: the field rule passes when `ignore_fields` is set or the handler has
no field filter; for a non-empty filter `f` it passes iff some changed path
has `f` as a prefix (the path itself or a descendant); a changed path that
is a *strict* ancestor of `f` never makes it pass. -/
theorem field_rule_prefix_semantics {ε : Type} (h : ResourceHandler ε)
    (changed : List FieldPath) (ignore : Bool) :
    (ignore = true → matchesField h changed ignore = true)
  ∧ (h.field = none → matchesField h changed ignore = true)
  ∧ (∀ f, h.field = some f → f ≠ [] →
      (matchesField h changed ignore = true ↔
        (ignore = true ∨ ∃ p ∈ changed, f <+: p)))
  ∧ (∀ f, h.field = some f → f ≠ [] → ignore = false →
      (∀ p ∈ changed, p <+: f ∧ p ≠ f) →
      matchesField h changed ignore = false) := by
  refine ⟨?_, ?_, ?_, ?_⟩
  · intro hi
    simp [matchesField, hi]
  · intro hf
    simp [matchesField, hf]
  · intro f hf hne
    have hfe : f.isEmpty = false := by
      cases f with
      | nil => exact absurd rfl hne
      | cons a t => rfl
    simp only [matchesField, hf, hfe, Bool.false_or, Bool.or_eq_true,
      List.any_eq_true, decide_eq_true_eq]
    constructor
    · rintro (hig | ⟨p, hp, hpr⟩)
      · exact Or.inl hig
      · exact Or.inr ⟨p, hp, List.prefix_iff_eq_take.mpr hpr.symm⟩
    · rintro (hig | ⟨p, hp, hpr⟩)
      · exact Or.inl hig
      · exact Or.inr ⟨p, hp, (List.prefix_iff_eq_take.mp hpr).symm⟩
  · intro f hf hne hig hanc
    subst hig
    have hfe : f.isEmpty = false := by
      cases f with
      | nil => exact absurd rfl hne
      | cons a t => rfl
    have hany : changed.any (fun p => decide (p.take f.length = f)) = false := by
      rw [← Bool.not_eq_true, List.any_eq_true]
      rintro ⟨p, hp, hpr⟩
      rw [decide_eq_true_eq] at hpr
      obtain ⟨hpf, hpne⟩ := hanc p hp
      have hfp : f <+: p := List.prefix_iff_eq_take.mpr hpr.symm
      exact hpne (List.IsPrefix.eq_of_length hpf
        (Nat.le_antisymm hpf.length_le hfp.length_le))
    simp [matchesField, hf, hfe, hany]

/-- Witness for C3 at a concrete input: a handler scoped to `spec` matches a
diff touching `spec.replicas`. -/
theorem field_rule_prefix_semantics_witness :
    matchesField (ε := Unit)
      { id := "h", fn := { refId := 1, obj := .function "h" }, reason := none,
        field := some ["spec"], initial := none, deleted := none,
        requires_finalizer := false, labels := none, annotations := none,
        when := none }
      [["spec", "replicas"]] false = true :=
  ((field_rule_prefix_semantics _ [["spec", "replicas"]] false).2.2.1 ["spec"]
    rfl (by decide)).mpr
    (Or.inr ⟨["spec", "replicas"], by simp, ⟨["replicas"], rfl⟩⟩)

theorem dedupAux_sublist {α : Type} [HasFn α] (seen : List Nat) (hs : List α) :
    List.Sublist (dedupAux seen hs) hs := by
  induction hs generalizing seen with
  | nil => simp [dedupAux]
  | cons h t ih =>
    rw [dedupAux]
    split
    · exact (ih seen).trans (List.sublist_cons_self h t)
    · exact (ih (fnIdOf h :: seen)).cons₂ h

theorem dedupAux_ids {α : Type} [HasFn α] (seen : List Nat) (hs : List α) :
    ((dedupAux seen hs).map fnIdOf).Nodup ∧
      ∀ k ∈ (dedupAux seen hs).map fnIdOf, k ∉ seen := by
  induction hs generalizing seen with
  | nil => simp [dedupAux]
  | cons h t ih =>
    rw [dedupAux]
    split
    · exact ih seen
    · rename_i hmem
      obtain ⟨ihn, ihs⟩ := ih (fnIdOf h :: seen)
      constructor
      · rw [List.map_cons, List.nodup_cons]
        exact ⟨fun hk => (ihs _ hk) (List.mem_cons_self _ _), ihn⟩
      · intro k hk
        rw [List.map_cons, List.mem_cons] at hk
        rcases hk with hk | hk
        · rw [hk]
          exact hmem
        · exact fun hks => (ihs k hk) (List.mem_cons_of_mem _ hks)

theorem dedupAux_find? {α : Type} [HasFn α] (seen : List Nat) (hs : List α)
    (k : Nat) (hk : k ∉ seen) :
    (dedupAux seen hs).find? (fun h => fnIdOf h == k) =
      hs.find? (fun h => fnIdOf h == k) := by
  induction hs generalizing seen with
  | nil => rfl
  | cons h t ih =>
    rw [dedupAux]
    split
    · rename_i hmem
      have hne : (fnIdOf h == k) = false := by
        rw [beq_eq_false_iff_ne]
        intro he
        exact hk (he ▸ hmem)
      rw [List.find?_cons_of_neg _ (by simp [hne]), ih seen hk]
    · rename_i hmem
      by_cases heq : fnIdOf h = k
      · rw [List.find?_cons_of_pos _ (by simp [heq]),
          List.find?_cons_of_pos _ (by simp [heq])]
      · rw [List.find?_cons_of_neg _ (by simp [heq]),
          List.find?_cons_of_neg _ (by simp [heq])]
        refine ih (fnIdOf h :: seen) ?_
        intro hks
        rcases List.mem_cons.mp hks with hks | hks
        · exact heq hks.symm
        · exact hk hks

/-- C5: `deduplicated` returns an ordered sub-sequence of its input whose
callback reference identities are pairwise distinct, and for every identity
`k` the record it retains (if any) is exactly the *first* record of the
input with that identity — i.e. later records wrapping an already-seen
callback are dropped, regardless of their registration ids, and the
callback survives in the position of its first match. -/
theorem deduplicated_keeps_first_occurrence {α : Type} [HasFn α] (hs : List α) :
    List.Sublist (deduplicated hs) hs
  ∧ ((deduplicated hs).map fnIdOf).Nodup
  ∧ ∀ k, (deduplicated hs).find? (fun h => fnIdOf h == k) =
      hs.find? (fun h => fnIdOf h == k) :=
  ⟨dedupAux_sublist [] hs, (dedupAux_ids [] hs).1,
    fun k => dedupAux_find? [] hs k (by simp)⟩

theorem except_bind_ok {ε α β : Type} (a : α) (f : α → Except ε β) :
    (Except.ok a >>= f) = f a := rfl

theorem except_bind_error {ε α β : Type} (e : ε) (f : α → Except ε β) :
    ((Except.error e : Except ε α) >>= f) = Except.error e := rfl

/-- A deletion-oriented handler carrying a field filter (`field=["spec"]`)
and `requires_finalizer=True`, with no other filters. -/
def fieldScopedDel : ResourceHandler String :=
  { id := "del_fn/spec", fn := { refId := 3, obj := .function "del_fn" },
    reason := some .delete, field := some ["spec"], initial := none,
    deleted := none, requires_finalizer := true, labels := none,
    annotations := none, when := none }

/-- A cause with an unconstrained body. -/
def bareCause : ResourceCause :=
  { resource := { group := "g", version := "v", plural := "p" },
    body := { labels := [], annotations := [] } }

/-- C2, counterexample: `requires_finalizer` does *not* ignore the field
rule.  It calls `match(handler, cause)` with the default
`changed_fields=frozenset()`, so a handler with a field filter fails the
field rule against the empty changed set and never triggers a finalizer —
although it has `requires_finalizer=True` and matches the cause when the
field rule is actually ignored (third conjunct, `ignore_fields=True`).
The claim predicts `.ok true` here; the code yields `.ok false`. -/
theorem requires_finalizer_field_handler_not_counted :
    ResourceRegistry.requires_finalizer [fieldScopedDel] bareCause = Except.ok false
  ∧ fieldScopedDel.requires_finalizer = true
  ∧ matchCause fieldScopedDel bareCause [] true = Except.ok true :=
  ⟨rfl, rfl, rfl⟩

/-- C2, amended: provided the relevant `when` callbacks do not raise,
`requires_finalizer` is true iff some registered handler has
`requires_finalizer=true` and matches the cause via the MatchEngine with
`ignore_fields=false` and an *empty* changed-field set — so a handler with
a field filter set never counts. -/
theorem requires_finalizer_iff_matching_with_empty_changed {ε : Type}
    (hs : List (ResourceHandler ε)) (c : ResourceCause)
    (hok : ∀ h ∈ hs, h.requires_finalizer = true →
      ∃ b, matchCause h c [] false = .ok b) :
    (ResourceRegistry.requires_finalizer hs c = .ok true ↔
      ∃ h ∈ hs, h.requires_finalizer = true ∧
        matchCause h c [] false = .ok true) := by
  induction hs with
  | nil =>
    simp [ResourceRegistry.requires_finalizer]
  | cons h t ih =>
    have ihok : ∀ h2 ∈ t, h2.requires_finalizer = true →
        ∃ b, matchCause h2 c [] false = .ok b :=
      fun h2 hm hr => hok h2 (List.mem_cons_of_mem _ hm) hr
    rw [ResourceRegistry.requires_finalizer]
    by_cases hrf : h.requires_finalizer = true
    · obtain ⟨b, hb⟩ := hok h (List.mem_cons_self h t) hrf
      rw [if_pos hrf, hb, except_bind_ok]
      cases b with
      | true =>
        simp only [if_pos rfl]
        constructor
        · intro _
          exact ⟨h, List.mem_cons_self h t, hrf, hb⟩
        · intro _
          rfl
      | false =>
        rw [if_neg (by simp), ih ihok]
        constructor
        · rintro ⟨h2, hm, hr, hmt⟩
          exact ⟨h2, List.mem_cons_of_mem _ hm, hr, hmt⟩
        · rintro ⟨h2, hm, hr, hmt⟩
          rcases List.mem_cons.mp hm with hm | hm
          · subst hm
            rw [hb] at hmt
            exact absurd hmt (by simp)
          · exact ⟨h2, hm, hr, hmt⟩
    · rw [if_neg hrf, ih ihok]
      constructor
      · rintro ⟨h2, hm, hr, hmt⟩
        exact ⟨h2, List.mem_cons_of_mem _ hm, hr, hmt⟩
      · rintro ⟨h2, hm, hr, hmt⟩
        rcases List.mem_cons.mp hm with hm | hm
        · subst hm
          exact absurd hr hrf
        · exact ⟨h2, hm, hr, hmt⟩

/-- A deletion-oriented handler with no filters at all. -/
def plainDel : ResourceHandler String :=
  { id := "del_fn", fn := { refId := 4, obj := .function "del_fn" },
    reason := none, field := none, initial := none, deleted := none,
    requires_finalizer := true, labels := none, annotations := none,
    when := none }

/-- Witness for the amended C2 at a concrete input. -/
theorem requires_finalizer_iff_matching_with_empty_changed_witness :
    ResourceRegistry.requires_finalizer [plainDel] bareCause = Except.ok true :=
  (requires_finalizer_iff_matching_with_empty_changed [plainDel] bareCause
    (fun h hm _ => by
      rw [List.mem_singleton] at hm
      subst hm
      exact ⟨true, rfl⟩)).mpr
    ⟨plainDel, List.mem_singleton.mpr rfl, rfl, rfl⟩

theorem changingIter_mem {ε : Type} (c : ResourceChangingCause) :
    ∀ (hs l : List (ResourceHandler ε)),
      ResourceChangingRegistry.iter_handlers hs c = .ok l →
      ∀ h ∈ l, changingSelected h c = .ok true ∧ h ∈ hs := by
  intro hs
  induction hs with
  | nil =>
    intro l hok h hm
    simp only [ResourceChangingRegistry.iter_handlers] at hok
    obtain rfl : ([] : List (ResourceHandler ε)) = l := by injection hok
    exact absurd hm (by simp)
  | cons h0 t ih =>
    intro l hok h hm
    simp only [ResourceChangingRegistry.iter_handlers] at hok
    cases hsel : changingSelected h0 c with
    | error e =>
      rw [hsel, except_bind_error] at hok
      exact absurd hok (by simp)
    | ok b =>
      rw [hsel, except_bind_ok] at hok
      cases hrest : ResourceChangingRegistry.iter_handlers t c with
      | error e =>
        rw [hrest, except_bind_error] at hok
        exact absurd hok (by simp)
      | ok rest =>
        rw [hrest, except_bind_ok] at hok
        have hl : (if b = true then h0 :: rest else rest) = l := by injection hok
        cases b with
        | true =>
          rw [if_pos rfl] at hl
          subst hl
          rcases List.mem_cons.mp hm with hm | hm
          · subst hm
            exact ⟨hsel, List.mem_cons_self _ _⟩
          · obtain ⟨hm1, hm2⟩ := ih rest hrest h hm
            exact ⟨hm1, List.mem_cons_of_mem _ hm2⟩
        | false =>
          rw [if_neg (by simp)] at hl
          subst hl
          obtain ⟨hm1, hm2⟩ := ih rest hrest h hm
          exact ⟨hm1, List.mem_cons_of_mem _ hm2⟩

/-- C4: the two initial-phase gates of the changing selection.  An
`initial`-only handler is skipped whenever the cause is not initial; during
an initial deletion it is skipped unless `deleted=True`; with
`deleted=True` (and in general for non-initial-only handlers) only the
reason gate and the MatchEngine decide.  The final conjunct ties the gates
to membership in the selection result. -/
theorem initial_phase_gates {ε : Type} (h : ResourceHandler ε)
    (c : ResourceChangingCause) :
    (h.initial = some true → c.initial = false → changingSelected h c = .ok false)
  ∧ (h.initial = some true → c.initial = true → c.deleted = true →
      h.deleted ≠ some true → changingSelected h c = .ok false)
  ∧ (h.initial = some true → c.initial = true → c.deleted = true →
      h.deleted = some true →
      changingSelected h c =
        (if h.reason = none ∨ h.reason = some c.reason
         then matchCause h c.toResourceCause (changedFields c) false
         else .ok false))
  ∧ (h.initial ≠ some true →
      changingSelected h c =
        (if h.reason = none ∨ h.reason = some c.reason
         then matchCause h c.toResourceCause (changedFields c) false
         else .ok false))
  ∧ (∀ hs l, ResourceChangingRegistry.iter_handlers hs c = .ok l → h ∈ l →
      changingSelected h c = .ok true) := by
  refine ⟨?_, ?_, ?_, ?_, ?_⟩
  · intro h1 h2
    simp [changingSelected, h1, h2]
  · intro h1 h2 h3 h4
    simp [changingSelected, h1, h2, h3, h4]
  · intro h1 h2 h3 h4
    simp [changingSelected, h1, h2, h3, h4]
  · intro h1
    simp [changingSelected, h1]
  · exact fun hs l hok hm => (changingIter_mem c hs l hok h hm).1

/-- An initial-only handler with no other filters. -/
def initOnlyH : ResourceHandler String :=
  { id := "init", fn := { refId := 5, obj := .function "init" },
    reason := none, field := none, initial := some true, deleted := none,
    requires_finalizer := false, labels := none, annotations := none,
    when := none }

/-- A steady-state (non-initial, non-deletion) changing cause. -/
def steadyCause : ResourceChangingCause :=
  { resource := { group := "g", version := "v", plural := "p" },
    body := { labels := [], annotations := [] }, reason := .update,
    diff := [], initial := false, deleted := false }

/-- Witness for C4 at a concrete input: the initial-only handler is
excluded from a steady-state cause. -/
theorem initial_phase_gates_witness :
    changingSelected initOnlyH steadyCause = .ok false :=
  (initial_phase_gates initOnlyH steadyCause).1 rfl rfl

theorem matchCause_when_error {ε : Type} (h : ResourceHandler ε)
    (c : ResourceCause) (changed : List FieldPath) (ignore : Bool)
    (w : ResourceCause → Except ε Bool) (e : ε)
    (hw : h.when = some w) (he : w c = .error e) :
    matchCause h c changed ignore = .error e := by
  simp only [matchCause, matchesFilterCallback, hw, he, except_bind_error]

/-- C7: the predicate rule passes when `when` is absent; otherwise the
callback's outcome is the rule's outcome, and a raised error propagates
through `match` (even though the other three rules were already computed)
and out of the registry selections unmodified. -/
theorem when_rule_and_error_propagation {ε : Type} (h : ResourceHandler ε)
    (c : ResourceCause) (changed : List FieldPath) (ignore : Bool) :
    (h.when = none → matchesFilterCallback h c = .ok true)
  ∧ (∀ w, h.when = some w → matchesFilterCallback h c = w c)
  ∧ (∀ w e, h.when = some w → w c = .error e →
      matchCause h c changed ignore = .error e)
  ∧ (∀ w e (t : List (ResourceHandler ε)) (wc : ResourceWatchingCause),
      wc.toResourceCause = c → h.when = some w → w c = .error e →
      ResourceWatchingRegistry.iter_handlers (h :: t) wc = .error e)
  ∧ (∀ w e (t : List (ResourceHandler ε)) (cc : ResourceChangingCause),
      cc.toResourceCause = c → h.when = some w → w c = .error e →
      (h.reason = none ∨ h.reason = some cc.reason) →
      h.initial ≠ some true →
      ResourceChangingRegistry.iter_handlers (h :: t) cc = .error e) := by
  refine ⟨?_, ?_, ?_, ?_, ?_⟩
  · intro hw
    simp [matchesFilterCallback, hw]
  · intro w hw
    simp [matchesFilterCallback, hw]
  · intro w e hw he
    exact matchCause_when_error h c changed ignore w e hw he
  · intro w e t wc hwc hw he
    simp only [ResourceWatchingRegistry.iter_handlers]
    rw [hwc, matchCause_when_error h c [] true w e hw he, except_bind_error]
  · intro w e t cc hcc hw he hreason hini
    have hsel : changingSelected h cc = .error e := by
      unfold changingSelected
      rw [if_pos hreason, if_neg (by simp [hini]), if_neg (by simp [hini]), hcc]
      exact matchCause_when_error h c (changedFields cc) false w e hw he
    simp only [ResourceChangingRegistry.iter_handlers]
    rw [hsel, except_bind_error]

/-- A handler whose `when` callback always raises. -/
def boomH : ResourceHandler String :=
  { id := "boom", fn := { refId := 6, obj := .function "boom" },
    reason := none, field := none, initial := none, deleted := none,
    requires_finalizer := false, labels := none, annotations := none,
    when := some fun _ => .error "boom" }

/-- A low-level watching cause over an unconstrained body. -/
def watchCause : ResourceWatchingCause :=
  { resource := { group := "g", version := "v", plural := "p" },
    body := { labels := [], annotations := [] }, event := "ADDED" }

/-- Witness for C7 at a concrete input: the raised predicate error reaches
the caller of the watching selection unmodified. -/
theorem when_rule_and_error_propagation_witness :
    ResourceWatchingRegistry.iter_handlers [boomH] watchCause = .error "boom" :=
  (when_rule_and_error_propagation boomH watchCause.toResourceCause [] true).2.2.2.1
    (fun _ => .error "boom") "boom" [] watchCause rfl rfl rfl

/-- C8: querying an `OperatorRegistry` for a resource kind with no
registered handlers of the queried family — whether the kind is entirely
absent from the per-kind map, or present with an empty registry — yields an
empty selection / empty field set / `false`, never an error, and returns
the registry state unchanged: the membership guards keep the `defaultdict`
from inserting the kind as a new key. -/
theorem absent_kind_queries_empty_and_pure {ε : Type} (st : OperatorRegistry ε)
    (r : Resource) (wc : ResourceWatchingCause) (cc : ResourceChangingCause)
    (c : ResourceCause) (hwr : wc.resource = r) (hcr : cc.resource = r) :
    ((assocLookup r st.resource_watching_handlers = none ∨
      assocLookup r st.resource_watching_handlers = some []) →
        OperatorRegistry.iter_resource_watching_handlers st wc = (.ok [], st)
      ∧ OperatorRegistry.get_resource_watching_handlers st wc = (.ok [], st)
      ∧ OperatorRegistry.has_resource_watching_handlers st r = (false, st))
  ∧ ((assocLookup r st.resource_changing_handlers = none ∨
      assocLookup r st.resource_changing_handlers = some []) →
        OperatorRegistry.iter_resource_changing_handlers st cc = (.ok [], st)
      ∧ OperatorRegistry.get_resource_changing_handlers st cc = (.ok [], st)
      ∧ OperatorRegistry.has_resource_changing_handlers st r = (false, st)
      ∧ OperatorRegistry.get_extra_fields st r = ([], st)
      ∧ OperatorRegistry.requires_finalizer st r c = (.ok false, st)) := by
  constructor
  · intro hyp
    have hiter :
        OperatorRegistry.iter_resource_watching_handlers st wc = (.ok [], st) := by
      rcases hyp with hn | he
      · simp [OperatorRegistry.iter_resource_watching_handlers, hwr, hn]
      · simp [OperatorRegistry.iter_resource_watching_handlers, hwr, he,
          defaultdictGet, ResourceWatchingRegistry.iter_handlers]
    refine ⟨hiter, ?_, ?_⟩
    · simp [OperatorRegistry.get_resource_watching_handlers, hiter,
        Except.map, deduplicated, dedupAux]
    · rcases hyp with hn | he
      · simp [OperatorRegistry.has_resource_watching_handlers, hn]
      · simp [OperatorRegistry.has_resource_watching_handlers, he, defaultdictGet]
  · intro hyp
    have hiter :
        OperatorRegistry.iter_resource_changing_handlers st cc = (.ok [], st) := by
      rcases hyp with hn | he
      · simp [OperatorRegistry.iter_resource_changing_handlers, hcr, hn]
      · simp [OperatorRegistry.iter_resource_changing_handlers, hcr, he,
          defaultdictGet, ResourceChangingRegistry.iter_handlers]
    refine ⟨hiter, ?_, ?_, ?_, ?_⟩
    · simp [OperatorRegistry.get_resource_changing_handlers, hiter,
        Except.map, deduplicated, dedupAux]
    · rcases hyp with hn | he
      · simp [OperatorRegistry.has_resource_changing_handlers, hn]
      · simp [OperatorRegistry.has_resource_changing_handlers, he, defaultdictGet]
    · rcases hyp with hn | he
      · simp [OperatorRegistry.get_extra_fields, hn]
      · simp [OperatorRegistry.get_extra_fields, he, defaultdictGet,
          ResourceRegistry.get_extra_fields, ResourceRegistry.iter_extra_fields]
    · rcases hyp with hn | he
      · simp [OperatorRegistry.requires_finalizer, hn]
      · simp [OperatorRegistry.requires_finalizer, he, defaultdictGet,
          ResourceRegistry.requires_finalizer]

/-- An operator registry with no registrations at all. -/
def emptyOperatorRegistry : OperatorRegistry String :=
  { activity_handlers := [], resource_watching_handlers := [],
    resource_changing_handlers := [] }

/-- Witness for C8 at a concrete input: querying an empty operator registry
for an unknown kind yields an empty result and the unchanged registry. -/
theorem absent_kind_queries_empty_and_pure_witness :
    OperatorRegistry.iter_resource_watching_handlers emptyOperatorRegistry watchCause
      = (.ok [], emptyOperatorRegistry)
  ∧ OperatorRegistry.requires_finalizer emptyOperatorRegistry
      watchCause.toResourceCause.resource watchCause.toResourceCause
      = (.ok false, emptyOperatorRegistry) :=
  ⟨((absent_kind_queries_empty_and_pure emptyOperatorRegistry
      watchCause.toResourceCause.resource watchCause steadyCause
      watchCause.toResourceCause rfl rfl).1 (Or.inl rfl)).1,
   ((absent_kind_queries_empty_and_pure emptyOperatorRegistry
      watchCause.toResourceCause.resource watchCause steadyCause
      watchCause.toResourceCause rfl rfl).2 (Or.inl rfl)).2.2.2.2⟩

end Kopf
